import Mathlib

/-!
# Verification of the `AdAggregator` engine (`aggregator.py`)

Shallow embedding of the aggregation / metrics / ranking engine of
`src/aggregator.py`.

Modelling choices:

* A CSV data row (as produced by `csv.DictReader`) is a `Row` holding the
  raw string of each consumed column (`date` is never read by the engine
  and is omitted).
* Python `int(...)` / `float(...)` applied to a CSV cell are modelled by
  `pyParseInt` / `pyParseFloat`, returning `none` where Python raises
  `ValueError` (optional sign followed by decimal digits, with an optional
  fractional part for `float`).
* Python floats are modelled by `ℚ`.  The counters are integer-valued
  (sums of `int(...)` results started from `0.0`), so they are modelled by
  `ℤ`; `spend` is modelled by `ℚ` (the spec states spend totals are only
  compared up to floating tolerance, and the claims are stated in terms of
  exact rational arithmetic).
* Python `round(x, 4)` is modelled by `round4`, round-half-to-even at four
  decimal places.
* The insertion-ordered `dict` fields `self._results` / `self._metrics`
  are modelled by association lists (`List (String × _)`) with
  first-occurrence lookup; a fresh key is appended at the end, which is
  exactly the insertion order of a Python `dict`.
* The engine object is `Engine`; each method becomes a function from the
  engine state (and its arguments) to the new engine state plus its
  return value.  `aggregate` returns an error flag instead of raising: the
  flag is `true` exactly when the Python code raises `ValueError` out of
  the row loop, and the returned state is the state the mutated object is
  left in at that point.
* File output is modelled by the list of CSV records a report file would
  contain; `_write_csv` returns `none` (no file is created — the Python
  code returns before `open`) when its data list is empty.
-/

/-- Decimal digit string to `ℕ`; `none` on an empty or non-digit input. -/
def digitsToNat? (cs : List Char) : Option Nat :=
  if cs.isEmpty then none
  else cs.foldl (fun acc c =>
    acc.bind (fun n => if c.isDigit then some (10 * n + (c.toNat - 48)) else none))
    (some 0)

/-- Model of Python `int(s)` on a CSV cell: optional sign, then decimal
digits; `none` where Python raises `ValueError`. -/
def pyParseInt (s : String) : Option Int :=
  match s.toList with
  | '-' :: cs => (digitsToNat? cs).map (fun n => -(n : Int))
  | '+' :: cs => (digitsToNat? cs).map (fun n => (n : Int))
  | cs => (digitsToNat? cs).map (fun n => (n : Int))

/-- Digits with an optional fractional part, e.g. `64.29`, `3.`, `.5`. -/
def decimalCore (cs : List Char) : Option ℚ :=
  match cs.span (fun c => c ≠ '.') with
  | (ip, []) => (digitsToNat? ip).map (fun n => (n : ℚ))
  | (ip, _ :: fp) =>
    if ip.isEmpty && fp.isEmpty then none
    else
      match (if ip.isEmpty then some 0 else digitsToNat? ip),
            (if fp.isEmpty then some 0 else digitsToNat? fp) with
      | some i, some f => some ((i : ℚ) + (f : ℚ) / ((10 : ℚ) ^ fp.length))
      | _, _ => none

/-- Model of Python `float(s)` on a CSV cell: optional sign, then a decimal
number with an optional fractional part; `none` where Python raises
`ValueError`. -/
def pyParseFloat (s : String) : Option ℚ :=
  match s.toList with
  | '-' :: cs => (decimalCore cs).map (fun q => -q)
  | '+' :: cs => decimalCore cs
  | cs => decimalCore cs

/-- Round a rational to the nearest integer, ties to even (the rounding
Python `round` uses). -/
def roundHalfEven (q : ℚ) : ℤ :=
  let f := ⌊q⌋
  let r := q - (f : ℚ)
  if r < 1 / 2 then f
  else if 1 / 2 < r then f + 1
  else if f % 2 = 0 then f else f + 1

/-- Model of Python `round(x, 4)`. -/
def round4 (q : ℚ) : ℚ :=
  (roundHalfEven (q * 10000) : ℚ) / 10000

/-- One input CSV row as consumed by the engine: the raw strings of the
columns it reads (`date` is present in the file format but never read). -/
structure Row where
  campaign_id : String
  impressions : String
  clicks : String
  spend : String
  conversions : String
deriving Repr, DecidableEq

/-- The per-campaign accumulator: the value stored in `self._results`. -/
structure Accum where
  impressions : ℤ
  clicks : ℤ
  spend : ℚ
  conversions : ℤ
deriving Repr, DecidableEq

/-- The fresh accumulator installed on a campaign's first occurrence
(lines 43–48 of `aggregator.py`). -/
def Accum.zero : Accum := ⟨0, 0, 0, 0⟩

/-- Componentwise sum of accumulators. -/
def Accum.add (a b : Accum) : Accum :=
  ⟨a.impressions + b.impressions, a.clicks + b.clicks,
   a.spend + b.spend, a.conversions + b.conversions⟩

/-- The value stored per campaign in `self._metrics`: `cpa` is `None`
(absent) when the campaign has no conversions. -/
structure Metrics where
  ctr : ℚ
  cpa : Option ℚ
deriving Repr, DecidableEq

/-- The engine object: its two `dict` fields, as insertion-ordered
association lists. -/
structure Engine where
  results : List (String × Accum)
  metrics : List (String × Metrics)
deriving Repr, DecidableEq

/-- First-occurrence lookup in an association list — `d.get(k)` /
`d[k]` on a Python `dict`. -/
def lookupKey {α : Type} : List (String × α) → String → Option α
  | [], _ => none
  | p :: rest, k => if p.1 = k then some p.2 else lookupKey rest k

/-- Update the (first) entry with the given key — `d[k] = f(d[k])`. -/
def updateKey {α : Type} : List (String × α) → String → (α → α) → List (String × α)
  | [], _, _ => []
  | p :: rest, k, f => if p.1 = k then (p.1, f p.2) :: rest else p :: updateKey rest k f

/-- `if campaign_id not in self._results: self._results[campaign_id] = {...zeros...}`
(lines 42–48): append a zero accumulator on first occurrence. -/
def initIfAbsent (res : List (String × Accum)) (k : String) : List (String × Accum) :=
  if (lookupKey res k).isSome then res else res ++ [(k, Accum.zero)]

/-- The body of the row loop (lines 39–54): initialise the campaign's
entry, then add the four parsed fields one at a time, in source order.
The `Bool` is `true` when a parse fails (`ValueError`): the state returned
then is the partially updated state the Python object is left holding. -/
def processRow (res : List (String × Accum)) (row : Row) : List (String × Accum) × Bool :=
  let res0 := initIfAbsent res row.campaign_id
  match pyParseInt row.impressions with
  | none => (res0, true)
  | some i =>
    let res1 := updateKey res0 row.campaign_id (fun a => { a with impressions := a.impressions + i })
    match pyParseInt row.clicks with
    | none => (res1, true)
    | some c =>
      let res2 := updateKey res1 row.campaign_id (fun a => { a with clicks := a.clicks + c })
      match pyParseFloat row.spend with
      | none => (res2, true)
      | some s =>
        let res3 := updateKey res2 row.campaign_id (fun a => { a with spend := a.spend + s })
        match pyParseInt row.conversions with
        | none => (res3, true)
        | some v => (updateKey res3 row.campaign_id (fun a => { a with conversions := a.conversions + v }), false)

/-- The row loop of `aggregate`: process rows in order, stopping at the
first parse failure (the exception aborts the loop). -/
def aggregateRows : List (String × Accum) → List Row → List (String × Accum) × Bool
  | res, [] => (res, false)
  | res, row :: rest =>
    match processRow res row with
    | (res', true) => (res', true)
    | (res', false) => aggregateRows res' rest

/-- `AdAggregator.aggregate` (lines 18–56): clear both `dict`s, then run
the row loop from the empty mapping.  The `Bool` is `true` exactly when
the Python call raises out of the loop; the `Engine` is the state the
object holds afterwards in either case (on success, `aggregate` returns
`self._results`, i.e. the `results` field of that state). -/
def aggregate (e : Engine) (rows : List Row) : Engine × Bool :=
  let cleared := { e with results := [], metrics := [] }
  let out := aggregateRows cleared.results rows
  ({ cleared with results := out.1 }, out.2)

/-- `AdAggregator.get_results` (lines 58–65). -/
def get_results (e : Engine) : List (String × Accum) := e.results

/-- `AdAggregator.get_campaign_total` (lines 67–77): `self._results.get(campaign_id)`. -/
def get_campaign_total (e : Engine) (campaign_id : String) : Option Accum :=
  lookupKey e.results campaign_id

/-- The per-campaign body of `compute_metrics` (lines 100–115). -/
def deriveMetrics (a : Accum) : Metrics :=
  let ctr : ℚ := if 0 < a.impressions then (a.clicks : ℚ) / (a.impressions : ℚ) else 0
  let cpa : Option ℚ := if 0 < a.conversions then some (a.spend / (a.conversions : ℚ)) else none
  { ctr := round4 ctr, cpa := cpa.map round4 }

/-- The whole metrics mapping derived from an accumulator mapping. -/
def deriveAll (res : List (String × Accum)) : List (String × Metrics) :=
  res.map (fun p => (p.1, deriveMetrics p.2))

/-- `AdAggregator.compute_metrics` (lines 79–117): clear `self._metrics`
and rebuild it from `self._results`; returns the new metrics mapping. -/
def compute_metrics (e : Engine) : Engine × List (String × Metrics) :=
  ({ e with metrics := deriveAll e.results }, deriveAll e.results)

/-- `AdAggregator.get_metrics` (lines 119–126). -/
def get_metrics (e : Engine) : List (String × Metrics) := e.metrics

/-- One row of `report_data` (lines 147–158): a campaign's raw totals
joined with its metrics. -/
structure ReportRow where
  campaign_id : String
  impressions : ℤ
  clicks : ℤ
  spend : ℚ
  conversions : ℤ
  ctr : ℚ
  cpa : Option ℚ
deriving Repr, DecidableEq

/-- The CPA sort key; every row sorted by it has survived the
`cpa is not None` filter, so the default is never exercised. -/
def cpaKey (r : ReportRow) : ℚ := r.cpa.getD 0

/-- The `report_data` loop (lines 147–158): one `ReportRow` per entry of
`self._metrics`, joined with `self._results[campaign_id]`.  (In Python a
key missing from `self._results` would raise `KeyError`; that state is
unreachable because metrics are always derived from results, so the model
simply skips such an entry.) -/
def buildReportData (res : List (String × Accum)) (mets : List (String × Metrics)) :
    List ReportRow :=
  mets.filterMap (fun p =>
    (lookupKey res p.1).map (fun raw =>
      { campaign_id := p.1, impressions := raw.impressions, clicks := raw.clicks,
        spend := round4 raw.spend, conversions := raw.conversions,
        ctr := p.2.ctr, cpa := p.2.cpa }))

/-- `sorted(..., key=lambda x: x['ctr'], reverse=True)`: `a` may precede
`b` when `a.ctr ≥ b.ctr`. -/
def ctrGe (a b : ReportRow) : Prop := b.ctr ≤ a.ctr

instance : DecidableRel ctrGe :=
  fun a b => inferInstanceAs (Decidable (b.ctr ≤ a.ctr))

instance : IsTotal ReportRow ctrGe := ⟨fun a b => le_total b.ctr a.ctr⟩

instance : IsTrans ReportRow ctrGe := ⟨fun _ _ _ h1 h2 => le_trans h2 h1⟩

/-- `sorted(..., key=lambda x: x['cpa'])`: `a` may precede `b` when
`a.cpa ≤ b.cpa`. -/
def cpaLe (a b : ReportRow) : Prop := cpaKey a ≤ cpaKey b

instance : DecidableRel cpaLe :=
  fun a b => inferInstanceAs (Decidable (cpaKey a ≤ cpaKey b))

instance : IsTotal ReportRow cpaLe := ⟨fun a b => le_total (cpaKey a) (cpaKey b)⟩

instance : IsTrans ReportRow cpaLe := ⟨fun _ _ _ h1 h2 => le_trans h1 h2⟩

/-- `if not self._metrics: self.compute_metrics()` (lines 143–144). -/
def ensureMetrics (e : Engine) : Engine :=
  if e.metrics.isEmpty then (compute_metrics e).1 else e

/-- `AdAggregator.write_reports` (lines 128–171), its pure content: ensure
metrics are computed, build `report_data`, and return the resulting engine
state together with the data rows of the two reports — `top10_ctr` (stable
sort by CTR descending, first 10) and `top10_cpa` (rows with a CPA, stable
sort by CPA ascending, first 10).  `List.insertionSort` is a stable sort,
so it produces the same list as Python's stable `sorted`. -/
def write_reports (e : Engine) : Engine × List ReportRow × List ReportRow :=
  (ensureMetrics e,
   (List.insertionSort ctrGe
     (buildReportData (ensureMetrics e).results (ensureMetrics e).metrics)).take 10,
   (List.insertionSort cpaLe
     ((buildReportData (ensureMetrics e).results (ensureMetrics e).metrics).filter
       (fun r => r.cpa.isSome))).take 10)

/-- The fixed header of both report files (line 184). -/
def headerRow : List String :=
  ["campaign_id", "total_impressions", "total_clicks", "total_spend",
   "total_conversions", "CTR", "CPA"]

/-- One serialized CSV record (lines 189–200); a `None` CPA is written as
an empty cell by `csv.DictWriter`. -/
def serializeRow (r : ReportRow) : List String :=
  [r.campaign_id, toString r.impressions, toString r.clicks, toString r.spend,
   toString r.conversions, toString r.ctr,
   match r.cpa with
   | some q => toString q
   | none => ""]

/-- `AdAggregator._write_csv` (lines 173–200): `none` models "no file is
created" — with an empty data list the method returns before opening the
file (lines 181–182); otherwise the file holds the header record followed
by the data records. -/
def write_csv (data : List ReportRow) : Option (List (List String)) :=
  if data.isEmpty then none
  else some (headerRow :: data.map serializeRow)

/-- The two report artifacts `write_reports` produces, as
`(top10_ctr.csv, top10_cpa.csv)`; `none` means the file is not created. -/
def write_reports_files (e : Engine) :
    Option (List (List String)) × Option (List (List String)) :=
  match write_reports e with
  | (_, top10_ctr, top10_cpa) => (write_csv top10_ctr, write_csv top10_cpa)

/-- `true` when some numeric field of the row fails to parse, i.e. exactly
when the Python row body raises `ValueError`. -/
def rowMalformed (r : Row) : Bool :=
  (pyParseInt r.impressions).isNone || (pyParseInt r.clicks).isNone ||
  (pyParseFloat r.spend).isNone || (pyParseInt r.conversions).isNone

/-- The four parsed numeric fields of a well-formed row, as an `Accum`. -/
def rowAcc (r : Row) : Accum :=
  { impressions := (pyParseInt r.impressions).getD 0,
    clicks := (pyParseInt r.clicks).getD 0,
    spend := (pyParseFloat r.spend).getD 0,
    conversions := (pyParseInt r.conversions).getD 0 }

/-- The componentwise sums of the parsed fields over all rows of a given
campaign: the totals the spec's grouping property asserts. -/
def totalsFor (k : String) (rows : List Row) : Accum :=
  { impressions := ((rows.filter (fun r => r.campaign_id == k)).map
      (fun r => (pyParseInt r.impressions).getD 0)).sum,
    clicks := ((rows.filter (fun r => r.campaign_id == k)).map
      (fun r => (pyParseInt r.clicks).getD 0)).sum,
    spend := ((rows.filter (fun r => r.campaign_id == k)).map
      (fun r => (pyParseFloat r.spend).getD 0)).sum,
    conversions := ((rows.filter (fun r => r.campaign_id == k)).map
      (fun r => (pyParseInt r.conversions).getD 0)).sum }

/-! ## Association-list lemmas -/

theorem lookupKey_append {α : Type} (l1 l2 : List (String × α)) (k : String) :
    lookupKey (l1 ++ l2) k =
      match lookupKey l1 k with
      | some v => some v
      | none => lookupKey l2 k := by
  induction l1 with
  | nil => simp [lookupKey]
  | cons p rest ih =>
    by_cases h : p.1 = k <;> simp [lookupKey, h, ih]

theorem lookupKey_updateKey {α : Type} (l : List (String × α)) (k k' : String) (f : α → α) :
    lookupKey (updateKey l k f) k' =
      if k' = k then (lookupKey l k).map f else lookupKey l k' := by
  induction l with
  | nil => simp [lookupKey, updateKey]
  | cons p rest ih =>
    simp only [updateKey]
    by_cases h1 : p.1 = k
    · subst h1
      by_cases h2 : k' = p.1
      · subst h2; simp [lookupKey]
      · simp [lookupKey, h2, (Ne.symm h2 : ¬ p.1 = k')]
    · by_cases h3 : p.1 = k'
      · simp [lookupKey, h1, h3, (show ¬ k' = k from fun h => h1 (h3.trans h))]
      · simp [lookupKey, h1, h3, ih]

theorem lookupKey_map {α β : Type} (f : α → β) (l : List (String × α)) (k : String) :
    lookupKey (l.map (fun p => (p.1, f p.2))) k = (lookupKey l k).map f := by
  induction l with
  | nil => simp [lookupKey]
  | cons p rest ih => by_cases h : p.1 = k <;> simp [lookupKey, h, ih]

theorem lookupKey_isSome_iff_mem {α : Type} (l : List (String × α)) (k : String) :
    (lookupKey l k).isSome ↔ k ∈ l.map Prod.fst := by
  induction l with
  | nil => simp [lookupKey]
  | cons p rest ih =>
    by_cases h : p.1 = k
    · simp [lookupKey, h]
    · have hk : ¬ k = p.1 := fun he => h he.symm
      simp only [lookupKey, h, if_false, ih, List.map_cons, List.mem_cons, hk, false_or]

theorem keys_updateKey {α : Type} (l : List (String × α)) (k : String) (f : α → α) :
    (updateKey l k f).map Prod.fst = l.map Prod.fst := by
  induction l with
  | nil => simp [updateKey]
  | cons p rest ih => by_cases h : p.1 = k <;> simp [updateKey, h, ih]

theorem lookupKey_of_mem_nodup {α : Type} (l : List (String × α))
    (hnd : (l.map Prod.fst).Nodup) (p : String × α) (hp : p ∈ l) :
    lookupKey l p.1 = some p.2 := by
  induction l with
  | nil => simp at hp
  | cons q rest ih =>
    rcases List.mem_cons.mp hp with h | h
    · subst h; simp [lookupKey]
    · have hq : q.1 ≠ p.1 := by
        intro he
        exact (List.nodup_cons.mp hnd).1 (he ▸ List.mem_map_of_mem Prod.fst h)
      simp [lookupKey, Ne.symm hq ∘ Eq.symm, hq]
      exact ih (List.nodup_cons.mp hnd).2 h

/-! ## `initIfAbsent` lemmas -/

theorem lookupKey_initIfAbsent_self (res : List (String × Accum)) (k : String) :
    lookupKey (initIfAbsent res k) k = some ((lookupKey res k).getD Accum.zero) := by
  unfold initIfAbsent
  cases h : lookupKey res k with
  | some a => simp [h]
  | none => simp [h, lookupKey_append, lookupKey]

theorem lookupKey_initIfAbsent_other (res : List (String × Accum)) (k k' : String)
    (h : k' ≠ k) : lookupKey (initIfAbsent res k) k' = lookupKey res k' := by
  unfold initIfAbsent
  cases hr : lookupKey res k with
  | some a => simp [hr]
  | none =>
    simp only [hr, Option.isSome_none, Bool.false_eq_true, if_false, lookupKey_append]
    cases hk : lookupKey res k' with
    | some a => simp
    | none => simp [lookupKey, Ne.symm h]

theorem keys_initIfAbsent (res : List (String × Accum)) (k : String) :
    (initIfAbsent res k).map Prod.fst =
      if (lookupKey res k).isSome then res.map Prod.fst else res.map Prod.fst ++ [k] := by
  unfold initIfAbsent
  split <;> simp

/-! ## Accumulator algebra -/

theorem accum_add_assoc (a b c : Accum) :
    Accum.add (Accum.add a b) c = Accum.add a (Accum.add b c) := by
  simp [Accum.add, add_assoc]

theorem accum_zero_add (a : Accum) : Accum.add Accum.zero a = a := by
  cases a; simp [Accum.add, Accum.zero]

theorem accum_add_zero (a : Accum) : Accum.add a Accum.zero = a := by
  cases a; simp [Accum.add, Accum.zero]

theorem totalsFor_nil (k : String) : totalsFor k [] = Accum.zero := by
  simp [totalsFor, Accum.zero]

theorem totalsFor_cons_self (k : String) (r : Row) (rest : List Row)
    (h : r.campaign_id = k) :
    totalsFor k (r :: rest) = Accum.add (rowAcc r) (totalsFor k rest) := by
  simp [totalsFor, Accum.add, rowAcc, List.filter_cons, h]

theorem totalsFor_cons_ne (k : String) (r : Row) (rest : List Row)
    (h : ¬ r.campaign_id = k) :
    totalsFor k (r :: rest) = totalsFor k rest := by
  simp [totalsFor, List.filter_cons, h]

/-! ## `processRow` lemmas -/

theorem processRow_snd (res : List (String × Accum)) (r : Row) :
    (processRow res r).2 = rowMalformed r := by
  cases h1 : pyParseInt r.impressions <;> cases h2 : pyParseInt r.clicks <;>
    cases h3 : pyParseFloat r.spend <;> cases h4 : pyParseInt r.conversions <;>
    simp [processRow, rowMalformed, h1, h2, h3, h4]

theorem processRow_lookup_self (res : List (String × Accum)) (r : Row)
    (h : rowMalformed r = false) :
    lookupKey (processRow res r).1 r.campaign_id =
      some (Accum.add ((lookupKey res r.campaign_id).getD Accum.zero) (rowAcc r)) := by
  rcases h1 : pyParseInt r.impressions with _ | i
  · simp [rowMalformed, h1] at h
  rcases h2 : pyParseInt r.clicks with _ | c
  · simp [rowMalformed, h2] at h
  rcases h3 : pyParseFloat r.spend with _ | s
  · simp [rowMalformed, h3] at h
  rcases h4 : pyParseInt r.conversions with _ | v
  · simp [rowMalformed, h4] at h
  simp [processRow, h1, h2, h3, h4, lookupKey_updateKey,
    lookupKey_initIfAbsent_self, rowAcc, Accum.add]

theorem processRow_lookup_other (res : List (String × Accum)) (r : Row) (k : String)
    (h : k ≠ r.campaign_id) :
    lookupKey (processRow res r).1 k = lookupKey res k := by
  cases h1 : pyParseInt r.impressions <;> cases h2 : pyParseInt r.clicks <;>
    cases h3 : pyParseFloat r.spend <;> cases h4 : pyParseInt r.conversions <;>
    simp [processRow, h1, h2, h3, h4, lookupKey_updateKey, h,
      lookupKey_initIfAbsent_other res r.campaign_id k h]

theorem processRow_keys (res : List (String × Accum)) (r : Row) :
    (processRow res r).1.map Prod.fst = (initIfAbsent res r.campaign_id).map Prod.fst := by
  cases h1 : pyParseInt r.impressions <;> cases h2 : pyParseInt r.clicks <;>
    cases h3 : pyParseFloat r.spend <;> cases h4 : pyParseInt r.conversions <;>
    simp [processRow, h1, h2, h3, h4, keys_updateKey]

/-! ## `aggregateRows` lemmas -/

theorem aggregateRows_append (xs ys : List Row) :
    ∀ res : List (String × Accum), (aggregateRows res xs).2 = false →
      aggregateRows res (xs ++ ys) = aggregateRows (aggregateRows res xs).1 ys := by
  induction xs with
  | nil => intro res _; rfl
  | cons x xs ih =>
    intro res h
    simp only [aggregateRows, List.cons_append] at h ⊢
    rcases hp : processRow res x with ⟨res', err⟩
    cases err
    · simp only [hp] at h ⊢
      exact ih res' h
    · rw [hp] at h; simp at h

theorem aggregateRows_clean (rows : List Row) :
    ∀ res : List (String × Accum), (∀ r ∈ rows, rowMalformed r = false) →
      (aggregateRows res rows).2 = false ∧
      ∀ k, lookupKey (aggregateRows res rows).1 k =
        match lookupKey res k with
        | some a => some (Accum.add a (totalsFor k rows))
        | none =>
          if k ∈ rows.map Row.campaign_id then some (totalsFor k rows) else none := by
  induction rows with
  | nil =>
    intro res _
    refine ⟨rfl, fun k => ?_⟩
    cases hres : lookupKey res k <;>
      simp [aggregateRows, hres, totalsFor_nil, accum_add_zero]
  | cons r rest ih =>
    intro res h
    have hr : rowMalformed r = false := h r (List.mem_cons_self r rest)
    have hrest : ∀ x ∈ rest, rowMalformed x = false :=
      fun x hx => h x (List.mem_cons_of_mem r hx)
    have hstep : aggregateRows res (r :: rest) = aggregateRows (processRow res r).1 rest := by
      simp only [aggregateRows]
      rcases hp : processRow res r with ⟨res', err⟩
      cases err
      · simp
      · have : (processRow res r).2 = true := by rw [hp]
        rw [processRow_snd, hr] at this
        exact absurd this (by simp)
    rw [hstep]
    obtain ⟨ih1, ih2⟩ := ih (processRow res r).1 hrest
    refine ⟨ih1, fun k => ?_⟩
    rw [ih2 k]
    by_cases hk : k = r.campaign_id
    · subst hk
      rw [processRow_lookup_self res r hr]
      cases hres : lookupKey res r.campaign_id with
      | some a =>
        simp only [hres, Option.getD_some]
        rw [totalsFor_cons_self r.campaign_id r rest rfl, ← accum_add_assoc]
      | none =>
        simp only [hres, Option.getD_none, accum_zero_add, List.map_cons, List.mem_cons,
          true_or, if_true]
        rw [totalsFor_cons_self r.campaign_id r rest rfl]
    · rw [processRow_lookup_other res r k hk]
      have ht : totalsFor k (r :: rest) = totalsFor k rest :=
        totalsFor_cons_ne k r rest (fun he => hk he.symm)
      have hm : (k ∈ (r :: rest).map Row.campaign_id) ↔ (k ∈ rest.map Row.campaign_id) := by
        simp [hk]
      cases hres : lookupKey res k <;> simp [hres, ht, hm, hk]

/-! ## Key-set invariants of the accumulator mapping -/

theorem keys_nodup_initIfAbsent (res : List (String × Accum)) (k : String)
    (hnd : (res.map Prod.fst).Nodup) : ((initIfAbsent res k).map Prod.fst).Nodup := by
  unfold initIfAbsent
  cases h : lookupKey res k with
  | some a => simpa [h] using hnd
  | none =>
    have hk : k ∉ res.map Prod.fst := by
      rw [← lookupKey_isSome_iff_mem, h]; simp
    simp [h, List.nodup_append, hnd, hk]

theorem keys_nodup_processRow (res : List (String × Accum)) (r : Row)
    (hnd : (res.map Prod.fst).Nodup) : ((processRow res r).1.map Prod.fst).Nodup := by
  rw [processRow_keys]
  exact keys_nodup_initIfAbsent res r.campaign_id hnd

theorem keys_processRow_subset (res : List (String × Accum)) (r : Row) (k : String)
    (hk : k ∈ (processRow res r).1.map Prod.fst) :
    k ∈ res.map Prod.fst ∨ k = r.campaign_id := by
  rw [processRow_keys, keys_initIfAbsent] at hk
  by_cases h : (lookupKey res r.campaign_id).isSome
  · rw [if_pos h] at hk; exact Or.inl hk
  · rw [if_neg h] at hk
    rcases List.mem_append.mp hk with hk | hk
    · exact Or.inl hk
    · exact Or.inr (List.mem_singleton.mp hk)

theorem aggregateRows_keys_nodup (rows : List Row) :
    ∀ res : List (String × Accum), (res.map Prod.fst).Nodup →
      ((aggregateRows res rows).1.map Prod.fst).Nodup := by
  induction rows with
  | nil => intro res hnd; exact hnd
  | cons r rest ih =>
    intro res hnd
    simp only [aggregateRows]
    rcases hp : processRow res r with ⟨res', err⟩
    have hres' : (res'.map Prod.fst).Nodup := by
      have := keys_nodup_processRow res r hnd
      rwa [hp] at this
    cases err
    · exact ih res' hres'
    · exact hres'

theorem aggregateRows_keys_subset (rows : List Row) :
    ∀ res : List (String × Accum), ∀ k ∈ (aggregateRows res rows).1.map Prod.fst,
      k ∈ res.map Prod.fst ∨ k ∈ rows.map Row.campaign_id := by
  induction rows with
  | nil => intro res k hk; exact Or.inl hk
  | cons r rest ih =>
    intro res k hk
    simp only [aggregateRows] at hk
    rcases hp : processRow res r with ⟨res', err⟩
    rw [hp] at hk
    have hsub : k ∈ res'.map Prod.fst → k ∈ res.map Prod.fst ∨ k = r.campaign_id := by
      intro h
      have := keys_processRow_subset res r k (by rwa [hp])
      exact this
    cases err with
    | true =>
      rcases hsub hk with h | h
      · exact Or.inl h
      · exact Or.inr (by simp [h])
    | false =>
      rcases ih res' k hk with h | h
      · rcases hsub h with h' | h'
        · exact Or.inl h'
        · exact Or.inr (by simp [h'])
      · exact Or.inr (by simp [h])

/-! ## Metrics lookup -/

theorem lookupKey_compute_metrics (e : Engine) (k : String) :
    lookupKey (compute_metrics e).2 k = (lookupKey e.results k).map deriveMetrics :=
  lookupKey_map deriveMetrics e.results k

theorem roundHalfEven_zero : roundHalfEven 0 = 0 := by
  unfold roundHalfEven
  norm_num

theorem round4_zero : round4 0 = 0 := by
  rw [round4, zero_mul, roundHalfEven_zero]
  norm_num

/-! ## Claim theorems -/

/-- C3: for every campaign whose `conversions_total` is strictly positive,
`compute_metrics` yields `cpa = round(spend_total / conversions_total, 4)`;
for every campaign whose `conversions_total` is zero, CPA is absent
(`none`, the model of Python `None`) in the metrics mapping — not numeric
zero. -/
theorem compute_metrics_cpa (e : Engine) (k : String) (a : Accum)
    (hk : lookupKey e.results k = some a) :
    ∃ m : Metrics, lookupKey (compute_metrics e).2 k = some m ∧
      (0 < a.conversions → m.cpa = some (round4 (a.spend / (a.conversions : ℚ)))) ∧
      (a.conversions = 0 → m.cpa = none) := by
  refine ⟨deriveMetrics a, ?_, fun h => ?_, fun h => ?_⟩
  · rw [lookupKey_compute_metrics, hk]; rfl
  · simp [deriveMetrics, h]
  · simp [deriveMetrics, h]

/-- Witness for `compute_metrics_cpa` at a concrete engine state. -/
theorem compute_metrics_cpa_witness :
    lookupKey (Engine.mk [("A", ⟨100, 7, 3, 2⟩), ("B", ⟨50, 1, 4, 0⟩)] []).results "A" =
      some ⟨100, 7, 3, 2⟩ ∧
    (∃ m : Metrics,
      lookupKey (compute_metrics (Engine.mk [("A", ⟨100, 7, 3, 2⟩), ("B", ⟨50, 1, 4, 0⟩)] [])).2
          "A" = some m ∧
      ((0 : ℤ) < (⟨100, 7, 3, 2⟩ : Accum).conversions →
        m.cpa = some (round4 ((⟨100, 7, 3, 2⟩ : Accum).spend /
          (((⟨100, 7, 3, 2⟩ : Accum).conversions : ℤ) : ℚ)))) ∧
      ((⟨100, 7, 3, 2⟩ : Accum).conversions = 0 → m.cpa = none)) :=
  ⟨by decide, compute_metrics_cpa (Engine.mk [("A", ⟨100, 7, 3, 2⟩), ("B", ⟨50, 1, 4, 0⟩)] [])
    "A" ⟨100, 7, 3, 2⟩ (by decide)⟩

/-- C5: for every campaign, `compute_metrics` yields
`ctr = round(clicks_total / impressions_total, 4)` when `impressions_total`
is strictly positive, and `ctr = 0.0` exactly when `impressions_total` is
zero. -/
theorem compute_metrics_ctr (e : Engine) (k : String) (a : Accum)
    (hk : lookupKey e.results k = some a) :
    ∃ m : Metrics, lookupKey (compute_metrics e).2 k = some m ∧
      (0 < a.impressions → m.ctr = round4 ((a.clicks : ℚ) / (a.impressions : ℚ))) ∧
      (a.impressions = 0 → m.ctr = 0) := by
  refine ⟨deriveMetrics a, ?_, fun h => ?_, fun h => ?_⟩
  · rw [lookupKey_compute_metrics, hk]; rfl
  · simp [deriveMetrics, h]
  · simp [deriveMetrics, h, round4_zero]

/-- Witness for `compute_metrics_ctr` at a concrete engine state. -/
theorem compute_metrics_ctr_witness :
    lookupKey (Engine.mk [("A", ⟨200, 30, 5, 1⟩)] []).results "A" = some ⟨200, 30, 5, 1⟩ ∧
    (∃ m : Metrics,
      lookupKey (compute_metrics (Engine.mk [("A", ⟨200, 30, 5, 1⟩)] [])).2 "A" = some m ∧
      ((0 : ℤ) < (⟨200, 30, 5, 1⟩ : Accum).impressions →
        m.ctr = round4 (((⟨200, 30, 5, 1⟩ : Accum).clicks : ℚ) /
          ((⟨200, 30, 5, 1⟩ : Accum).impressions : ℚ))) ∧
      ((⟨200, 30, 5, 1⟩ : Accum).impressions = 0 → m.ctr = 0)) :=
  ⟨by decide, compute_metrics_ctr (Engine.mk [("A", ⟨200, 30, 5, 1⟩)] [])
    "A" ⟨200, 30, 5, 1⟩ (by decide)⟩

/-- C7: `compute_metrics` is a pure function of the accumulator state:
running it twice in a row (no re-aggregation in between) returns the same
metrics mapping both times and leaves the same engine state. -/
theorem compute_metrics_idempotent (e : Engine) :
    (compute_metrics (compute_metrics e).1).2 = (compute_metrics e).2 ∧
    (compute_metrics (compute_metrics e).1).1 = (compute_metrics e).1 :=
  ⟨rfl, rfl⟩

/-- C8: `aggregate` rebuilds all state from scratch — its outcome does not
depend on the prior engine state at all, and the metrics mapping is left
cleared. -/
theorem aggregate_clears_prior_state (e1 e2 : Engine) (rows : List Row) :
    aggregate e1 rows = aggregate e2 rows ∧ (aggregate e1 rows).1.metrics = [] := by
  cases e1; cases e2; exact ⟨rfl, rfl⟩

/-! ## Aggregation lookup helpers (consequences of `aggregateRows_clean`) -/

theorem lookup_aggregate_clean (e : Engine) (rows : List Row)
    (h : ∀ r ∈ rows, rowMalformed r = false) (k : String)
    (hm : k ∈ rows.map Row.campaign_id) :
    lookupKey (aggregate e rows).1.results k = some (totalsFor k rows) := by
  obtain ⟨-, h2⟩ := aggregateRows_clean rows [] h
  have hb : lookupKey (aggregate e rows).1.results k =
      lookupKey (aggregateRows [] rows).1 k := rfl
  rw [hb, h2 k]
  simp [lookupKey, hm]

theorem lookup_aggregate_clean_none (e : Engine) (rows : List Row)
    (h : ∀ r ∈ rows, rowMalformed r = false) (k : String)
    (hm : k ∉ rows.map Row.campaign_id) :
    lookupKey (aggregate e rows).1.results k = none := by
  obtain ⟨-, h2⟩ := aggregateRows_clean rows [] h
  have hb : lookupKey (aggregate e rows).1.results k =
      lookupKey (aggregateRows [] rows).1 k := rfl
  rw [hb, h2 k]
  simp [lookupKey, hm]

theorem aggregate_error_split (e : Engine) (rowsPre : List Row) (bad : Row)
    (rest : List Row) (hclean : ∀ r ∈ rowsPre, rowMalformed r = false)
    (hbad : rowMalformed bad = true) :
    (aggregate e (rowsPre ++ bad :: rest)).2 = true ∧
    (aggregate e (rowsPre ++ bad :: rest)).1.results =
      (processRow (aggregateRows [] rowsPre).1 bad).1 := by
  obtain ⟨herr, -⟩ := aggregateRows_clean rowsPre [] hclean
  have hsplit : aggregateRows [] (rowsPre ++ bad :: rest) =
      aggregateRows (aggregateRows [] rowsPre).1 (bad :: rest) :=
    aggregateRows_append rowsPre (bad :: rest) [] herr
  have hstop : aggregateRows (aggregateRows [] rowsPre).1 (bad :: rest) =
      ((processRow (aggregateRows [] rowsPre).1 bad).1, true) := by
    simp only [aggregateRows]
    rcases hp : processRow (aggregateRows [] rowsPre).1 bad with ⟨res', err⟩
    have : err = true := by
      have h2 := processRow_snd (aggregateRows [] rowsPre).1 bad
      rw [hp] at h2
      simp only [] at h2
      exact h2.trans hbad
    subst this
    simp
  have hb1 : (aggregate e (rowsPre ++ bad :: rest)).2 =
      (aggregateRows [] (rowsPre ++ bad :: rest)).2 := rfl
  have hb2 : (aggregate e (rowsPre ++ bad :: rest)).1.results =
      (aggregateRows [] (rowsPre ++ bad :: rest)).1 := rfl
  rw [hb1, hb2, hsplit, hstop]
  exact ⟨rfl, rfl⟩

/-- C4: after a successful `aggregate`, each campaign's accumulated totals
equal the componentwise sums of that campaign's parsed row fields over the
whole input (`spend` exactly, in the rational model of floats). -/
theorem aggregate_grouping (e : Engine) (rows : List Row)
    (h : ∀ r ∈ rows, rowMalformed r = false) (k : String) (a : Accum)
    (hk : lookupKey (aggregate e rows).1.results k = some a) :
    a.impressions = ((rows.filter (fun r => r.campaign_id == k)).map
        (fun r => (pyParseInt r.impressions).getD 0)).sum ∧
    a.clicks = ((rows.filter (fun r => r.campaign_id == k)).map
        (fun r => (pyParseInt r.clicks).getD 0)).sum ∧
    a.spend = ((rows.filter (fun r => r.campaign_id == k)).map
        (fun r => (pyParseFloat r.spend).getD 0)).sum ∧
    a.conversions = ((rows.filter (fun r => r.campaign_id == k)).map
        (fun r => (pyParseInt r.conversions).getD 0)).sum := by
  by_cases hm : k ∈ rows.map Row.campaign_id
  · rw [lookup_aggregate_clean e rows h k hm] at hk
    obtain rfl : totalsFor k rows = a := Option.some.inj hk
    exact ⟨rfl, rfl, rfl, rfl⟩
  · rw [lookup_aggregate_clean_none e rows h k hm] at hk
    cases hk

/-- Input for the witnesses: two campaigns, three well-formed rows. -/
def wit_rows : List Row :=
  [⟨"A", "10", "2", "3", "1"⟩, ⟨"B", "5", "1", "2", "0"⟩, ⟨"A", "7", "3", "4", "2"⟩]

/-- Witness for `aggregate_grouping` on a concrete three-row input. -/
theorem aggregate_grouping_witness :
    (∀ r ∈ wit_rows, rowMalformed r = false) ∧
    lookupKey (aggregate ⟨[], []⟩ wit_rows).1.results "A" = some (totalsFor "A" wit_rows) ∧
    ((totalsFor "A" wit_rows).impressions = ((wit_rows.filter
        (fun r => r.campaign_id == "A")).map (fun r => (pyParseInt r.impressions).getD 0)).sum ∧
     (totalsFor "A" wit_rows).clicks = ((wit_rows.filter
        (fun r => r.campaign_id == "A")).map (fun r => (pyParseInt r.clicks).getD 0)).sum ∧
     (totalsFor "A" wit_rows).spend = ((wit_rows.filter
        (fun r => r.campaign_id == "A")).map (fun r => (pyParseFloat r.spend).getD 0)).sum ∧
     (totalsFor "A" wit_rows).conversions = ((wit_rows.filter
        (fun r => r.campaign_id == "A")).map (fun r => (pyParseInt r.conversions).getD 0)).sum) :=
  ⟨by decide,
   lookup_aggregate_clean ⟨[], []⟩ wit_rows (by decide) "A" (by decide),
   aggregate_grouping ⟨[], []⟩ wit_rows (by decide) "A" (totalsFor "A" wit_rows)
     (lookup_aggregate_clean ⟨[], []⟩ wit_rows (by decide) "A" (by decide))⟩

/-- C10: after a successful aggregation, `get_campaign_total` returns the
campaign's accumulator for a campaign id present in the input, and `None`
(not an exception — the total function returns) for an id that never
occurred. -/
theorem get_campaign_total_spec (e : Engine) (rows : List Row)
    (h : ∀ r ∈ rows, rowMalformed r = false) (k : String) :
    (k ∈ rows.map Row.campaign_id →
      get_campaign_total (aggregate e rows).1 k = some (totalsFor k rows)) ∧
    (k ∉ rows.map Row.campaign_id →
      get_campaign_total (aggregate e rows).1 k = none) :=
  ⟨fun hm => lookup_aggregate_clean e rows h k hm,
   fun hm => lookup_aggregate_clean_none e rows h k hm⟩

/-- Witness for `get_campaign_total_spec` on the concrete input. -/
theorem get_campaign_total_spec_witness :
    (∀ r ∈ wit_rows, rowMalformed r = false) ∧
    (("A" ∈ wit_rows.map Row.campaign_id →
      get_campaign_total (aggregate ⟨[], []⟩ wit_rows).1 "A" = some (totalsFor "A" wit_rows)) ∧
     ("A" ∉ wit_rows.map Row.campaign_id →
      get_campaign_total (aggregate ⟨[], []⟩ wit_rows).1 "A" = none)) :=
  ⟨by decide, get_campaign_total_spec ⟨[], []⟩ wit_rows (by decide) "A"⟩

/-- C9: aggregation state is bounded by the number of distinct campaign
keys: the accumulator mapping has pairwise-distinct keys and its size
never exceeds the number of distinct campaign ids in the input — not the
number of input records. -/
theorem aggregate_memory_bound (e : Engine) (rows : List Row) :
    (((aggregate e rows).1.results).map Prod.fst).Nodup ∧
    (aggregate e rows).1.results.length ≤ (rows.map Row.campaign_id).dedup.length := by
  have hb : (aggregate e rows).1.results = (aggregateRows [] rows).1 := rfl
  have hnd : (((aggregateRows [] rows).1).map Prod.fst).Nodup :=
    aggregateRows_keys_nodup rows [] (by simp)
  have hsub : ∀ k ∈ ((aggregateRows [] rows).1).map Prod.fst,
      k ∈ rows.map Row.campaign_id := by
    intro k hk
    rcases aggregateRows_keys_subset rows [] k hk with hcon | hcon
    · simp at hcon
    · exact hcon
  refine ⟨hb ▸ hnd, ?_⟩
  rw [hb, ← List.length_map ((aggregateRows [] rows).1) Prod.fst]
  rw [← List.toFinset_card_of_nodup hnd, ← List.card_toFinset]
  refine Finset.card_le_card ?_
  intro x hx
  rw [List.mem_toFinset] at hx ⊢
  exact hsub x hx

/-! ## Report-data membership -/

theorem mem_buildReportData (res : List (String × Accum)) (mets : List (String × Metrics))
    (r : ReportRow) (hr : r ∈ buildReportData res mets) :
    ∃ p ∈ mets, ∃ raw, lookupKey res p.1 = some raw ∧
      r = { campaign_id := p.1, impressions := raw.impressions, clicks := raw.clicks,
            spend := round4 raw.spend, conversions := raw.conversions,
            ctr := p.2.ctr, cpa := p.2.cpa } := by
  unfold buildReportData at hr
  rcases List.mem_filterMap.mp hr with ⟨p, hp, hmap⟩
  rcases Option.map_eq_some'.mp hmap with ⟨raw, hraw, hre⟩
  exact ⟨p, hp, raw, hraw, hre.symm⟩

theorem ensureMetrics_cleared (res : List (String × Accum)) :
    ensureMetrics ⟨res, []⟩ = ⟨res, deriveAll res⟩ := rfl

theorem ensureMetrics_derived (res : List (String × Accum)) :
    ensureMetrics ⟨res, deriveAll res⟩ = ⟨res, deriveAll res⟩ := by
  cases res with
  | nil => rfl
  | cons p rest => rfl

/-- C2 (amended): a malformed numeric field aborts the aggregation
(`aggregate` fails rather than returning a mapping); however the engine
afterwards *does* expose, through `get_results`, the partially accumulated
totals of every campaign of the rows processed before the malformed row. -/
theorem aggregate_aborts_on_malformed (e : Engine) (rowsPre : List Row) (bad : Row)
    (rest : List Row) (hclean : ∀ r ∈ rowsPre, rowMalformed r = false)
    (hbad : rowMalformed bad = true) :
    (aggregate e (rowsPre ++ bad :: rest)).2 = true ∧
    ∀ k, k ≠ bad.campaign_id → k ∈ rowsPre.map Row.campaign_id →
      lookupKey (get_results (aggregate e (rowsPre ++ bad :: rest)).1) k =
        some (totalsFor k rowsPre) := by
  obtain ⟨h1, h2⟩ := aggregate_error_split e rowsPre bad rest hclean hbad
  refine ⟨h1, fun k hkb hkm => ?_⟩
  have hres : get_results (aggregate e (rowsPre ++ bad :: rest)).1 =
      (processRow (aggregateRows [] rowsPre).1 bad).1 := h2
  rw [hres, processRow_lookup_other _ bad k hkb]
  obtain ⟨-, hc⟩ := aggregateRows_clean rowsPre [] hclean
  rw [hc k]
  simp [lookupKey, hkm]

/-- A well-formed row followed by a row whose `impressions` cell is not
numeric. -/
def cex_good : Row := ⟨"A", "100", "5", "7", "2"⟩

/-- The malformed row of the counterexample input. -/
def cex_bad : Row := ⟨"B", "x", "0", "0", "0"⟩

/-- C2 counterexample: on `[cex_good, cex_bad]` the aggregation aborts,
yet `get_results` exposes campaign `"A"`'s partially accumulated totals
(in particular `impressions = 100`), contradicting the claim that no
partial accumulator state is observable after the failure. -/
theorem aggregate_partial_state_cex :
    (aggregate ⟨[], []⟩ [cex_good, cex_bad]).2 = true ∧
    lookupKey (get_results (aggregate ⟨[], []⟩ [cex_good, cex_bad]).1) "A" =
      some (totalsFor "A" [cex_good]) ∧
    (totalsFor "A" [cex_good]).impressions = 100 := by
  have hsplit := aggregate_error_split ⟨[], []⟩ [cex_good] cex_bad [] (by decide) (by decide)
  have hform : [cex_good] ++ cex_bad :: ([] : List Row) = [cex_good, cex_bad] := rfl
  rw [hform] at hsplit
  obtain ⟨h1, h2⟩ := hsplit
  refine ⟨h1, ?_, by decide⟩
  have hgr : get_results (aggregate ⟨[], []⟩ [cex_good, cex_bad]).1 =
      (processRow (aggregateRows [] [cex_good]).1 cex_bad).1 := h2
  rw [hgr, processRow_lookup_other _ cex_bad "A" (by decide)]
  obtain ⟨-, hc⟩ := aggregateRows_clean [cex_good] [] (by decide)
  rw [hc "A"]
  simp [lookupKey, cex_good]

/-- C1 counterexample: with an empty accumulator mapping, `write_reports`
creates no report file at all (`_write_csv` returns before opening the
file), instead of writing two header-only files as claimed. -/
theorem write_reports_empty_cex :
    write_reports_files ⟨[], []⟩ = (none, none) := by decide

/-- C1 (amended): if the accumulator mapping is empty when `write_reports`
runs, neither report file is created (and no error is raised — the
function returns normally); likewise, when no campaign has positive
conversions, the CPA report file is not created. -/
theorem write_reports_empty_no_files (e : Engine)
    (hm : e.metrics = [] ∨ e.metrics = deriveAll e.results) :
    (e.results = [] → write_reports_files e = (none, none)) ∧
    ((∀ p ∈ e.results, p.2.conversions ≤ 0) → (write_reports_files e).2 = none) := by
  have hem : ensureMetrics e = ⟨e.results, deriveAll e.results⟩ := by
    cases e with
    | mk res mets =>
      simp only at hm
      rcases hm with hm | hm <;> subst hm
      · exact ensureMetrics_cleared res
      · exact ensureMetrics_derived res
  constructor
  · intro hres
    cases e with
    | mk res mets =>
      simp only at hres
      subst hres
      rcases hm with hm | hm <;> simp only at hm <;> subst hm <;> decide
  · intro hc
    have hsnd : (write_reports_files e).2 =
        write_csv ((List.insertionSort cpaLe
          ((buildReportData (ensureMetrics e).results (ensureMetrics e).metrics).filter
            (fun r => r.cpa.isSome))).take 10) := rfl
    have hfilter : (buildReportData (ensureMetrics e).results
        (ensureMetrics e).metrics).filter (fun r => r.cpa.isSome) = [] := by
      rw [List.filter_eq_nil_iff]
      intro r hr
      rw [hem] at hr
      obtain ⟨p, hp, raw, hraw, hre⟩ := mem_buildReportData _ _ r hr
      rcases List.mem_map.mp hp with ⟨q, hq, hpe⟩
      have hcnv : ¬ 0 < q.2.conversions := not_lt.mpr (hc q hq)
      have hcpa : p.2.cpa = none := by
        rw [← hpe]
        simp [deriveMetrics, hcnv]
      rw [hre]
      simp [hcpa]
    rw [hsnd, hfilter]
    rfl

/-- Witness for `write_reports_empty_no_files`: an engine whose single
campaign has zero conversions and whose metrics are cleared (the
post-`aggregate` shape of the reachable-state hypothesis). -/
theorem write_reports_empty_no_files_witness :
    ((Engine.mk [("A", ⟨5, 1, 4, 0⟩)] []).metrics = [] ∨
     (Engine.mk [("A", ⟨5, 1, 4, 0⟩)] []).metrics =
       deriveAll (Engine.mk [("A", ⟨5, 1, 4, 0⟩)] []).results) ∧
    (((Engine.mk [("A", ⟨5, 1, 4, 0⟩)] []).results = [] →
       write_reports_files (Engine.mk [("A", ⟨5, 1, 4, 0⟩)] []) = (none, none)) ∧
     ((∀ p ∈ (Engine.mk [("A", ⟨5, 1, 4, 0⟩)] []).results, p.2.conversions ≤ 0) →
       (write_reports_files (Engine.mk [("A", ⟨5, 1, 4, 0⟩)] [])).2 = none)) :=
  ⟨Or.inl rfl,
   write_reports_empty_no_files (Engine.mk [("A", ⟨5, 1, 4, 0⟩)] []) (Or.inl rfl)⟩

/-- C6: for every engine state produced by aggregation (optionally
followed by `compute_metrics`), the reports returned by `write_reports`
satisfy: the CPA report contains no campaign with zero conversions, both
reports hold at most 10 data rows, the CTR report is non-increasing in
CTR, and the CPA report is non-decreasing in CPA. -/
theorem write_reports_ranking (e0 : Engine) (rows : List Row) (e : Engine)
    (he : e = (aggregate e0 rows).1 ∨ e = (compute_metrics (aggregate e0 rows).1).1) :
    (∀ r ∈ (write_reports e).2.2, r.conversions ≠ 0) ∧
    (write_reports e).2.1.length ≤ 10 ∧
    (write_reports e).2.2.length ≤ 10 ∧
    List.Sorted ctrGe (write_reports e).2.1 ∧
    List.Sorted cpaLe (write_reports e).2.2 := by
  have hE : ensureMetrics e =
      ⟨(aggregate e0 rows).1.results, deriveAll (aggregate e0 rows).1.results⟩ := by
    rcases he with rfl | rfl
    · exact ensureMetrics_cleared (aggregate e0 rows).1.results
    · exact ensureMetrics_derived (aggregate e0 rows).1.results
  have hctrR : (write_reports e).2.1 = (List.insertionSort ctrGe
      (buildReportData (ensureMetrics e).results (ensureMetrics e).metrics)).take 10 := rfl
  have hcpaR : (write_reports e).2.2 = (List.insertionSort cpaLe
      ((buildReportData (ensureMetrics e).results (ensureMetrics e).metrics).filter
        (fun r => r.cpa.isSome))).take 10 := rfl
  refine ⟨?_, ?_, ?_, ?_, ?_⟩
  · intro r hr
    rw [hcpaR, hE] at hr
    have hr1 : r ∈ List.insertionSort cpaLe
        ((buildReportData (aggregate e0 rows).1.results
          (deriveAll (aggregate e0 rows).1.results)).filter (fun x => x.cpa.isSome)) :=
      List.mem_of_mem_take hr
    have hr2 := (List.mem_insertionSort cpaLe).mp hr1
    obtain ⟨hdata, hcpa⟩ := List.mem_filter.mp hr2
    obtain ⟨p, hp, raw, hraw, hre⟩ := mem_buildReportData _ _ r hdata
    rcases List.mem_map.mp hp with ⟨q, hq, hpe⟩
    subst hpe
    have hnd : (((aggregate e0 rows).1.results).map Prod.fst).Nodup :=
      aggregateRows_keys_nodup rows [] (by simp)
    have hlu : lookupKey (aggregate e0 rows).1.results q.1 = some q.2 :=
      lookupKey_of_mem_nodup _ hnd q hq
    have hraw' : raw = q.2 := by
      rw [hraw] at hlu
      exact Option.some.inj hlu
    have hpos : 0 < q.2.conversions := by
      by_contra hneg
      have hnone : (deriveMetrics q.2).cpa = none := by
        simp [deriveMetrics, hneg]
      rw [hre] at hcpa
      simp [hnone] at hcpa
    rw [hre, hraw']
    simp only []
    exact Int.ne_of_gt hpos
  · rw [hctrR, List.length_take]
    exact Nat.min_le_left _ _
  · rw [hcpaR, List.length_take]
    exact Nat.min_le_left _ _
  · rw [hctrR]
    exact List.Pairwise.sublist (List.take_sublist 10 _) (List.sorted_insertionSort ctrGe _)
  · rw [hcpaR]
    exact List.Pairwise.sublist (List.take_sublist 10 _) (List.sorted_insertionSort cpaLe _)

/-- Witness for `write_reports_ranking` on the concrete three-row input. -/
theorem write_reports_ranking_witness :
    ((aggregate (⟨[], []⟩ : Engine) wit_rows).1 = (aggregate ⟨[], []⟩ wit_rows).1 ∨
     (aggregate (⟨[], []⟩ : Engine) wit_rows).1 =
       (compute_metrics (aggregate ⟨[], []⟩ wit_rows).1).1) ∧
    ((∀ r ∈ (write_reports (aggregate (⟨[], []⟩ : Engine) wit_rows).1).2.2,
        r.conversions ≠ 0) ∧
     (write_reports (aggregate (⟨[], []⟩ : Engine) wit_rows).1).2.1.length ≤ 10 ∧
     (write_reports (aggregate (⟨[], []⟩ : Engine) wit_rows).1).2.2.length ≤ 10 ∧
     List.Sorted ctrGe (write_reports (aggregate (⟨[], []⟩ : Engine) wit_rows).1).2.1 ∧
     List.Sorted cpaLe (write_reports (aggregate (⟨[], []⟩ : Engine) wit_rows).1).2.2) :=
  ⟨Or.inl rfl,
   write_reports_ranking ⟨[], []⟩ wit_rows (aggregate ⟨[], []⟩ wit_rows).1 (Or.inl rfl)⟩

/-- Witness for `aggregate_aborts_on_malformed` on the concrete input. -/
theorem aggregate_aborts_on_malformed_witness :
    (∀ r ∈ [cex_good], rowMalformed r = false) ∧ rowMalformed cex_bad = true ∧
    ((aggregate ⟨[], []⟩ ([cex_good] ++ cex_bad :: [])).2 = true ∧
     ∀ k, k ≠ cex_bad.campaign_id → k ∈ [cex_good].map Row.campaign_id →
       lookupKey (get_results (aggregate ⟨[], []⟩ ([cex_good] ++ cex_bad :: [])).1) k =
         some (totalsFor k [cex_good])) :=
  ⟨by decide, by decide,
   aggregate_aborts_on_malformed ⟨[], []⟩ [cex_good] cex_bad [] (by decide) (by decide)⟩
